import Mathlib

/-
Verification development for smwcentral-kaizo-archiver.py.

The Python source is shallowly embedded below.  Strings are Lean Strings
(sequences of Unicode scalar values, as in Python), bytes are Nat values,
machine-width arithmetic inside MD5 is explicit modulo 2 ^ 32.  External
collaborators (the HTTP library, the zip container parser, the subprocess
runner) are passed in as explicit oracles; file writes are returned as an
ordered log of (path, bytes) pairs.  Python exceptions are modelled with
Except String; a caught exception corresponds to matching on the error
case exactly where the source has an except clause.
-/

namespace KaizoArchiver

/-! ## Python string primitives used by the source -/

/-- Python str.split(sep) for a one-character separator: splits at every
occurrence, keeping empty segments, never returning an empty list. -/
def splitOnChar (sep : Char) : List Char → List (List Char)
  | [] => [[]]
  | c :: t =>
    let r := splitOnChar sep t
    if c = sep then [] :: r
    else
      match r with
      | [] => [[c]]
      | h :: t2 => (c :: h) :: t2

/-- The segment after the last slash.  This is both download_url.split(slash)[-1]
(line 243 of the source) and os.path.basename (line 334), which on POSIX returns
the part of the path after the final slash. -/
def lastSlashSegment (s : String) : String :=
  ⟨(splitOnChar '/' s.data).getLastD []⟩

/-- os.path.join(a, b) with POSIX rules: an absolute second component wins;
otherwise the parts are glued with a single slash unless one is already there. -/
def posixJoin (a b : String) : String :=
  if b.data.head? = some '/' then b
  else if a = "" ∨ a.data.getLast? = some '/' then a ++ b
  else a ++ "/" ++ b

/-- One scan step list for Python str.replace with a nonempty pattern p:
at each position, if p matches here, emit s and skip the match, otherwise
keep one character.  Fuel is decremented once per emitted item; fuel equal
to the length of the text suffices because every step consumes at least
one character of the text. -/
def replFuel (p s : List Char) : Nat → List Char → List Char
  | 0, t => t
  | _ + 1, [] => []
  | f + 1, c :: t =>
    if p.isPrefixOf (c :: t) then s ++ replFuel p s f ((c :: t).drop p.length)
    else c :: replFuel p s f t

/-- Python str.replace(p, s): replaces every non-overlapping occurrence of p,
scanning left to right.  With an empty pattern Python inserts s between every
character and at both ends. -/
def pyReplace (t p s : String) : String :=
  match p.data with
  | [] => ⟨s.data ++ t.data.foldr (fun c acc => c :: (s.data ++ acc)) []⟩
  | _ :: _ => ⟨replFuel p.data s.data t.data.length t.data⟩

/-- Whether p occurs as a contiguous segment of t (so Python str.replace
performs at least one replacement when p is nonempty). -/
def hasSub : List Char → List Char → Bool
  | [], p => p.isPrefixOf []
  | c :: t, p => p.isPrefixOf (c :: t) || hasSub t p

/-- Python str.lower, restricted to the ASCII case mapping, which is all the
source ever relies on (it lowercases archive member names to test the
patch-file suffix). -/
def pyLower (s : String) : String :=
  ⟨s.data.map Char.toLower⟩

/-- Python str.endswith. -/
def pyEndsWith (s suf : String) : Bool :=
  suf.data.isSuffixOf s.data

/-- The characters the regex [<>:"/\\|?*] in sanitize_filename replaces. -/
def isIllegalChar (c : Char) : Bool :=
  c = '<' || c = '>' || c = ':' || c = '"' || c = '/' || c = '\\' ||
  c = '|' || c = '?' || c = '*'

/-- Whitespace as matched by the regex class backslash-s on Python str and by
str.strip: the ASCII whitespace characters together with the Unicode space
separators Python treats as whitespace. -/
def isPySpace (c : Char) : Bool :=
  c = ' ' || c = '\t' || c = '\n' || c = '\r' || c = '\x0b' || c = '\x0c' ||
  c = '\x1c' || c = '\x1d' || c = '\x1e' || c = '\x1f' || c = '\x85' ||
  c = '\xa0' || c = '\u1680' || ('\u2000' ≤ c && c ≤ '\u200a') ||
  c = '\u2028' || c = '\u2029' || c = '\u202f' || c = '\u205f' || c = '\u3000'

/-- A character collapsed by the regex [_\s]+ in sanitize_filename. -/
def isRunChar (c : Char) : Bool :=
  c = '_' || isPySpace c

/-- Replace every maximal run of underscore/whitespace characters by a single
space (the regex substitution of [_\s]+ with one space).  The Bool records
whether the previous character belonged to a run. -/
def collapseRuns : Bool → List Char → List Char
  | _, [] => []
  | inRun, c :: t =>
    if isRunChar c then
      if inRun then collapseRuns true t else ' ' :: collapseRuns true t
    else c :: collapseRuns false t

/-- Python str.strip(): drop whitespace from both ends. -/
def pyStrip (l : List Char) : List Char :=
  ((l.dropWhile isPySpace).reverse.dropWhile isPySpace).reverse

/-- sanitize_filename (source lines 135-143): map filesystem-illegal characters
to underscore, newlines and carriage returns to spaces, collapse runs of
underscores/whitespace to single spaces, and strip the ends. -/
def sanitize_filename (s : String) : String :=
  let s1 := s.data.map (fun c => if isIllegalChar c then '_' else c)
  let s2 := s1.map (fun c => if c = '\n' || c = '\r' then ' ' else c)
  ⟨pyStrip (collapseRuns false s2)⟩

/-! ## urllib.parse.unquote -/

def isHexDigitChar (c : Char) : Bool :=
  ('0' ≤ c && c ≤ '9') || ('a' ≤ c && c ≤ 'f') || ('A' ≤ c && c ≤ 'F')

def hexVal (c : Char) : Nat :=
  if '0' ≤ c && c ≤ '9' then c.toNat - 48
  else if 'a' ≤ c && c ≤ 'f' then c.toNat - 87
  else if 'A' ≤ c && c ≤ 'F' then c.toNat - 55
  else 0

/-- Collect the maximal leading run of percent-encoded bytes. -/
def collectBytes : List Char → List Nat × List Char
  | '%' :: a :: b :: t =>
    if isHexDigitChar a && isHexDigitChar b then
      match collectBytes t with
      | (bs, rest) => ((16 * hexVal a + hexVal b) :: bs, rest)
    else ([], '%' :: a :: b :: t)
  | l => ([], l)

def replChar : Char := Char.ofNat 0xfffd

def isContByte (b : Nat) : Bool := 0x80 ≤ b && b ≤ 0xbf

/-- UTF-8 decoding with the replace error handler, as Python bytes.decode with
errors equal to replace: each maximal invalid subpart becomes one U+FFFD.
Fuel is decremented once per decoded item; each item consumes at least one
byte, so fuel equal to the byte count suffices. -/
def utf8Decode : Nat → List Nat → List Char
  | 0, _ => []
  | _ + 1, [] => []
  | f + 1, b :: t =>
    if b < 0x80 then Char.ofNat b :: utf8Decode f t
    else if 0xc2 ≤ b && b ≤ 0xdf then
      match t with
      | c1 :: t1 =>
        if isContByte c1 then
          Char.ofNat ((b - 0xc0) * 64 + (c1 - 0x80)) :: utf8Decode f t1
        else replChar :: utf8Decode f t
      | [] => [replChar]
    else if 0xe0 ≤ b && b ≤ 0xef then
      match t with
      | c1 :: t1 =>
        if (if b = 0xe0 then 0xa0 else 0x80) ≤ c1 &&
            c1 ≤ (if b = 0xed then 0x9f else 0xbf) then
          match t1 with
          | c2 :: t2 =>
            if isContByte c2 then
              Char.ofNat ((b - 0xe0) * 4096 + (c1 - 0x80) * 64 + (c2 - 0x80)) ::
                utf8Decode f t2
            else replChar :: utf8Decode f t1
          | [] => [replChar]
        else replChar :: utf8Decode f t
      | [] => [replChar]
    else if 0xf0 ≤ b && b ≤ 0xf4 then
      match t with
      | c1 :: t1 =>
        if (if b = 0xf0 then 0x90 else 0x80) ≤ c1 &&
            c1 ≤ (if b = 0xf4 then 0x8f else 0xbf) then
          match t1 with
          | c2 :: t2 =>
            if isContByte c2 then
              match t2 with
              | c3 :: t3 =>
                if isContByte c3 then
                  Char.ofNat ((b - 0xf0) * 262144 + (c1 - 0x80) * 4096 +
                      (c2 - 0x80) * 64 + (c3 - 0x80)) :: utf8Decode f t3
                else replChar :: utf8Decode f t2
              | [] => [replChar]
            else replChar :: utf8Decode f t1
          | [] => [replChar]
        else replChar :: utf8Decode f t
      | [] => [replChar]
    else replChar :: utf8Decode f t

/-- Scan for urllib.parse.unquote: percent-encoded byte runs are decoded as
UTF-8 with replacement; a percent sign not followed by two hex digits is kept
literally.  Fuel is decremented once per step; each step consumes at least one
character. -/
def pyUnquoteAux : Nat → List Char → List Char
  | 0, l => l
  | _ + 1, [] => []
  | f + 1, '%' :: a :: b :: t =>
    if isHexDigitChar a && isHexDigitChar b then
      match collectBytes ('%' :: a :: b :: t) with
      | (bs, rest) => utf8Decode bs.length bs ++ pyUnquoteAux f rest
    else '%' :: pyUnquoteAux f (a :: b :: t)
  | f + 1, c :: t => c :: pyUnquoteAux f t

/-- urllib.parse.unquote on a str. -/
def pyUnquote (s : String) : String :=
  ⟨pyUnquoteAux s.data.length s.data⟩

/-! ## MD5 (hashlib.md5, used by get_short_hash) -/

def add32 (a b : Nat) : Nat := (a + b) % 4294967296

def not32 (x : Nat) : Nat := x ^^^ 4294967295

def rotl32 (x n : Nat) : Nat := ((x <<< n) + (x >>> (32 - n))) % 4294967296

def md5K : List Nat :=
  [0xd76aa478, 0xe8c7b756, 0x242070db, 0xc1bdceee,
   0xf57c0faf, 0x4787c62a, 0xa8304613, 0xfd469501,
   0x698098d8, 0x8b44f7af, 0xffff5bb1, 0x895cd7be,
   0x6b901122, 0xfd987193, 0xa679438e, 0x49b40821,
   0xf61e2562, 0xc040b340, 0x265e5a51, 0xe9b6c7aa,
   0xd62f105d, 0x02441453, 0xd8a1e681, 0xe7d3fbc8,
   0x21e1cde6, 0xc33707d6, 0xf4d50d87, 0x455a14ed,
   0xa9e3e905, 0xfcefa3f8, 0x676f02d9, 0x8d2a4c8a,
   0xfffa3942, 0x8771f681, 0x6d9d6122, 0xfde5380c,
   0xa4beea44, 0x4bdecfa9, 0xf6bb4b60, 0xbebfbc70,
   0x289b7ec6, 0xeaa127fa, 0xd4ef3085, 0x04881d05,
   0xd9d4d039, 0xe6db99e5, 0x1fa27cf8, 0xc4ac5665,
   0xf4292244, 0x432aff97, 0xab9423a7, 0xfc93a039,
   0x655b59c3, 0x8f0ccc92, 0xffeff47d, 0x85845dd1,
   0x6fa87e4f, 0xfe2ce6e0, 0xa3014314, 0x4e0811a1,
   0xf7537e82, 0xbd3af235, 0x2ad7d2bb, 0xeb86d391]

def md5S : List Nat :=
  [7, 12, 17, 22, 7, 12, 17, 22, 7, 12, 17, 22, 7, 12, 17, 22,
   5, 9, 14, 20, 5, 9, 14, 20, 5, 9, 14, 20, 5, 9, 14, 20,
   4, 11, 16, 23, 4, 11, 16, 23, 4, 11, 16, 23, 4, 11, 16, 23,
   6, 10, 15, 21, 6, 10, 15, 21, 6, 10, 15, 21, 6, 10, 15, 21]

def md5F (i b c d : Nat) : Nat :=
  if i < 16 then (b &&& c) ||| (not32 b &&& d)
  else if i < 32 then (d &&& b) ||| (not32 d &&& c)
  else if i < 48 then b ^^^ c ^^^ d
  else c ^^^ (b ||| not32 d)

def md5G (i : Nat) : Nat :=
  if i < 16 then i
  else if i < 32 then (5 * i + 1) % 16
  else if i < 48 then (3 * i + 5) % 16
  else (7 * i) % 16

/-- Little-endian 32-bit word from a byte list. -/
def le32 (bytes : List Nat) : Nat :=
  bytes.foldr (fun b acc => b + 256 * acc) 0

def md5Step (w : Nat → Nat) (st : Nat × Nat × Nat × Nat) (i : Nat) :
    Nat × Nat × Nat × Nat :=
  match st with
  | (a, b, c, d) =>
    let tmp := add32 (add32 (add32 a (md5F i b c d)) (md5K.getD i 0)) (w (md5G i))
    (d, add32 b (rotl32 tmp (md5S.getD i 0)), b, c)

def md5Block (st : Nat × Nat × Nat × Nat) (block : List Nat) :
    Nat × Nat × Nat × Nat :=
  let w := fun g => le32 ((block.drop (4 * g)).take 4)
  match st, (List.range 64).foldl (md5Step w) st with
  | (a0, b0, c0, d0), (a, b, c, d) =>
    (add32 a0 a, add32 b0 b, add32 c0 c, add32 d0 d)

def md5Pad (msg : List Nat) : List Nat :=
  let len := msg.length
  let zeros := (56 + 64 - (len + 1) % 64) % 64
  msg ++ [0x80] ++ List.replicate zeros 0 ++
    (List.range 8).map (fun i => ((8 * len) >>> (8 * i)) % 256)

def chunks64 : Nat → List Nat → List (List Nat)
  | 0, _ => []
  | _, [] => []
  | f + 1, l => l.take 64 :: chunks64 f (l.drop 64)

def toLE4 (x : Nat) : List Nat :=
  [x % 256, x / 256 % 256, x / 65536 % 256, x / 16777216 % 256]

/-- The 16-byte MD5 digest of a byte sequence. -/
def md5Bytes (msg : List Nat) : List Nat :=
  let padded := md5Pad msg
  match (chunks64 padded.length padded).foldl md5Block
      (0x67452301, 0xefcdab89, 0x98badcfe, 0x10325476) with
  | (a, b, c, d) => toLE4 a ++ toLE4 b ++ toLE4 c ++ toLE4 d

def hexDigitChar (n : Nat) : Char :=
  "0123456789abcdef".data.getD n '0'

def byteHex (b : Nat) : List Char :=
  [hexDigitChar (b / 16 % 16), hexDigitChar (b % 16)]

/-- hashlib hexdigest: lowercase hex, two characters per byte. -/
def hexdigest (bytes : List Nat) : String :=
  ⟨bytes.foldr (fun b acc => byteHex b ++ acc) []⟩

/-- get_short_hash (source lines 145-147): first 6 characters of the MD5
hexdigest of the data (the length parameter always takes its default 6). -/
def get_short_hash (data : List Nat) : String :=
  ⟨(hexdigest (md5Bytes data)).data.take 6⟩

/-! ## JSON-like values and Python dict/list behaviour -/

/-- A value as produced by response.json(): what catalog items, field maps and
author lists are made of. -/
inductive JVal where
  | null
  | bool (b : Bool)
  | num (n : Int)
  | str (s : String)
  | arr (items : List JVal)
  | obj (fields : List (String × JVal))

/-- Python truthiness of a JSON value. -/
def JVal.truthy : JVal → Bool
  | .null => false
  | .bool b => b
  | .num n => n != 0
  | .str s => s != ""
  | .arr l => !l.isEmpty
  | .obj l => !l.isEmpty

abbrev Py (α : Type) := Except String α

def lookupKey (kvs : List (String × JVal)) (k : String) : Option JVal :=
  match kvs with
  | [] => none
  | (k2, v) :: t => if k2 = k then some v else lookupKey t k

/-- Python v.get(k, dflt): returns the default when the key is absent, raises
AttributeError when the receiver is not a dict. -/
def pyGet (v : JVal) (k : String) (dflt : JVal) : Py JVal :=
  match v with
  | .obj kvs => .ok ((lookupKey kvs k).getD dflt)
  | _ => .error "AttributeError: get on non-dict"

/-- Coercion used where Python passes a value to a str-only operation
(re.sub, str.join, requests.get): anything else raises TypeError. -/
def JVal.asStr : JVal → Py String
  | .str s => .ok s
  | _ => .error "TypeError: expected str"

def joinSep (sep : String) : List String → String
  | [] => ""
  | [s] => s
  | s :: t => s ++ sep ++ joinSep sep t

/-! ## format_filename (source lines 194-222) -/

/-- The authors handling of format_filename (source lines 201-207): when the
authors value is truthy, join the sanitized author names with an ampersand,
raising exactly where the Python comprehension would raise; otherwise the
placeholder. -/
def authorsString (authorsV : JVal) : Py String :=
  if authorsV.truthy then
    match authorsV with
    | .arr l => do
      let author_names ← l.mapM (fun a => do
        let ns ← (← pyGet a "name" (.str "Unknown")).asStr
        pure (sanitize_filename ns))
      pure (joinSep " & " author_names)
    | _ => Except.error "TypeError: iteration over authors"
  else pure "Unknown"

/-- The body of the try block of format_filename: builds
name - authors - type - difficulty - length - decoded original filename,
raising exactly where the Python body would raise (get on a non-dict,
re.sub or join on a non-str). -/
def formatBody (item_data : JVal) (original_filename : String) : Py String := do
  let nameS ← (← pyGet item_data "name" (.str "Unknown")).asStr
  let name := sanitize_filename nameS
  let authorsV ← pyGet item_data "authors" (.arr [])
  let authors_str ← authorsString authorsV
  let fieldsV ← pyGet item_data "fields" (.obj [])
  let hack_type := sanitize_filename (← (← pyGet fieldsV "type" (.str "Unknown")).asStr)
  let difficulty := sanitize_filename (← (← pyGet fieldsV "difficulty" (.str "Unknown")).asStr)
  let length := sanitize_filename (← (← pyGet fieldsV "length" (.str "Unknown")).asStr)
  let decoded_original := pyUnquote original_filename
  pure (joinSep " - " [name, authors_str, hack_type, difficulty, length, decoded_original])

/-- format_filename: the try body, with the except branch falling back to the
sanitized decoded original filename. -/
def format_filename (item_data : JVal) (original_filename : String) : String :=
  match formatBody item_data original_filename with
  | .ok s => s
  | .error _ => sanitize_filename (pyUnquote original_filename)

/-! ## download_and_extract_bps (source lines 227-324) -/

/-- How reading one archive member can fail: zipfile.BadZipFile (caught at
source line 312) or any other exception (caught at line 315). -/
inductive ExtErr where
  | badZip
  | other (msg : String)

/-- The downloaded body as seen by zipfile.ZipFile: either not a valid zip
container, or a list of members (name, result of zip_ref.read). -/
inductive ZipBlob where
  | notZip
  | zipOf (members : List (String × Except ExtErr (List Nat)))

/-- Outcome of requests.get on the download URL: an exception, or a response
with a status code and a body. -/
inductive HttpResp where
  | raised (msg : String)
  | resp (status : Nat) (blob : ZipBlob)

/-- The result dict built by download_and_extract_bps. -/
structure FetchResult where
  success : Bool
  download_success : Bool
  bps_count : Nat
  bps_files : List String
  error : Option String
  requires_login : Bool
deriving DecidableEq, Repr

def emptyResult : FetchResult :=
  { success := false, download_success := false, bps_count := 0,
    bps_files := [], error := none, requires_login := false }

/-- The member selection at source line 277: the members whose lowercased
names end with the patch suffix. -/
def bpsMembersOf {A : Type} (members : List (String × A)) : List (String × A) :=
  members.filter (fun m => pyEndsWith (pyLower m.1) ".bps")

/-- The generated output filename for one extracted member (source lines
291-299): with a single patch member the decoded zip name has .zip replaced by
.bps inside the base name; with several members an underscore, the 6-character
content hash and .bps replace .zip. -/
def newBpsName (nMembers : Nat) (base_name decoded_filename : String)
    (bps_content : List Nat) : String :=
  if nMembers = 1 then
    pyReplace base_name decoded_filename (pyReplace decoded_filename ".zip" ".bps")
  else
    let hash_suffix := get_short_hash bps_content
    pyReplace base_name decoded_filename
      (pyReplace decoded_filename ".zip" ("_" ++ hash_suffix ++ ".bps"))

/-- The extraction loop (source lines 286-307): returns the recorded output
paths, the file writes performed, and the first member-read failure if any.
On a failure, paths already appended and writes already performed remain. -/
def extractLoop (nMembers : Nat) (base_name decoded_filename bps_dir : String) :
    List (String × Except ExtErr (List Nat)) →
      List String × List (String × List Nat) × Option ExtErr
  | [] => ([], [], none)
  | (_, .error e) :: _ => ([], [], some e)
  | (_, .ok content) :: rest =>
    let path := posixJoin bps_dir (newBpsName nMembers base_name decoded_filename content)
    match extractLoop nMembers base_name decoded_filename bps_dir rest with
    | (fs, ws, e) => (path :: fs, (path, content) :: ws, e)

/-- download_and_extract_bps.  The http oracle stands for requests.get; its
ZipBlob is the content of the saved file as zipfile.ZipFile later parses it
(the save of the raw zip to zip_dir is not tracked; the returned write log
covers the extracted patch files written to bps_dir).  A non-str URL makes
the very first line of the try block raise, landing in the outer except. -/
def download_and_extract_bps (item_data : JVal) (download_url : JVal)
    (zip_dir bps_dir : String) (http : String → HttpResp) :
    FetchResult × List (String × List Nat) :=
  match download_url with
  | .str durl =>
    let original_filename := lastSlashSegment durl
    let decoded_filename := pyUnquote original_filename
    let base_name := format_filename item_data original_filename
    match http durl with
    | .raised m =>
      ({ emptyResult with error := some ("Processing error: " ++ m) }, [])
    | .resp st blob =>
      if st = 403 then
        ({ emptyResult with
            requires_login := true,
            error := some "Requires login (age verification)" }, [])
      else if st ≠ 200 then
        ({ emptyResult with error := some ("HTTP " ++ toString st) }, [])
      else
        match blob with
        | .notZip =>
          ({ emptyResult with
              download_success := true,
              error := some "Invalid ZIP file" }, [])
        | .zipOf members =>
          let bps_members := bpsMembersOf members
          if bps_members.isEmpty then
            ({ emptyResult with download_success := true, success := true }, [])
          else
            match extractLoop bps_members.length base_name decoded_filename
                bps_dir bps_members with
            | (files, writes, none) =>
              ({ emptyResult with
                  download_success := true,
                  success := true,
                  bps_count := files.length,
                  bps_files := files }, writes)
            | (files, writes, some .badZip) =>
              ({ emptyResult with
                  download_success := true,
                  bps_files := files,
                  error := some "Invalid ZIP file" }, writes)
            | (files, writes, some (.other m)) =>
              ({ emptyResult with
                  download_success := true,
                  bps_files := files,
                  error := some ("Extraction error: " ++ m) }, writes)
  | _ => ({ emptyResult with error := some "Processing error: non-str url" }, [])

/-! ## patch_bps_file (source lines 329-352) -/

/-- Outcome of subprocess.run: a completed process with return code, stdout and
stderr, or an exception while invoking the tool. -/
inductive ProcOut where
  | ret (returncode : Int) (stdout stderr : String)
  | raised (msg : String)

/-- The output path handed to the external tool (source lines 334-336): the
basename of the patch with every occurrence of .bps replaced by .smc, joined
onto the patched directory. -/
def patchOutputPath (bps_path patched_dir : String) : String :=
  posixJoin patched_dir (pyReplace (lastSlashSegment bps_path) ".bps" ".smc")

/-- The four-token FLIPS invocation plus the executable (source line 338). -/
def flipsCmd (flips_path bps_path clean_rom patched_dir : String) : List String :=
  [flips_path, "-a", bps_path, clean_rom, patchOutputPath bps_path patched_dir]

/-- patch_bps_file: returns the boolean outcome together with the log lines
written (level, message). -/
def patch_bps_file (bps_path patched_dir flips_path clean_rom : String)
    (proc : List String → ProcOut) : Bool × List (String × String) :=
  let bps_filename := lastSlashSegment bps_path
  let log0 := [("DEBUG", "Patching: " ++ bps_filename)]
  match proc (flipsCmd flips_path bps_path clean_rom patched_dir) with
  | .ret returncode _ stderr =>
    if returncode = 0 then
      (true, log0 ++ [("DEBUG", "Successfully patched: " ++ bps_filename)])
    else
      (false, log0 ++ [("ERROR", "Failed to patch " ++ bps_filename ++ ": " ++ stderr)])
  | .raised m =>
    (false, log0 ++ [("ERROR", "Error patching " ++ bps_path ++ ": " ++ m)])

/-- Modelled from the spec (section 4.4 wording): the output name is the patch
filename with its .bps suffix - the trailing four characters - replaced by
.smc.  This is the comparison point for the refinement check of the naming
clause; the source instead replaces every occurrence of .bps. -/
def specPatchOutputName (bps_filename : String) : String :=
  if pyEndsWith bps_filename ".bps" then
    ⟨bps_filename.data.take (bps_filename.data.length - 4)⟩ ++ ".smc"
  else bps_filename

/-- Return code zero test on a subprocess outcome. -/
def zeroExit : ProcOut → Bool
  | .ret returncode _ _ => returncode == 0
  | .raised _ => false

/-! ## fetch_all_data (source lines 159-189) -/

/-- One observed outcome of requests.get in the pagination loop: an exception,
or a response carrying a status and the outcome of response.json(). -/
inductive PageResp where
  | raised (msg : String)
  | resp (status : Nat) (body : Py JVal)

/-- Python list.extend(v): succeeds on any iterable (appending list elements,
the characters of a str, the keys of a dict) and raises TypeError otherwise. -/
def pyExtendJ (acc : List JVal) : JVal → Py (List JVal)
  | .arr l => .ok (acc ++ l)
  | .str s => .ok (acc ++ s.data.map (fun c => JVal.str ⟨[c]⟩))
  | .obj kvs => .ok (acc ++ kvs.map (fun kv => JVal.str kv.1))
  | _ => .error "TypeError: not iterable"

/-- The while loop of fetch_all_data over the trace of successive responses.
Any exception and any non-200 status breaks the loop, returning the items
accumulated so far; a missing or falsy next_page_url ends it normally. -/
def fetchLoop : List PageResp → List JVal → List JVal
  | [], acc => acc
  | .raised _ :: _, acc => acc
  | .resp st body :: rest, acc =>
    if st = 200 then
      match body with
      | .error _ => acc
      | .ok j =>
        match pyGet j "data" (.arr []) with
        | .error _ => acc
        | .ok items =>
          match pyExtendJ acc items with
          | .error _ => acc
          | .ok acc2 =>
            match pyGet j "next_page_url" .null with
            | .error _ => acc2
            | .ok next => if next.truthy then fetchLoop rest acc2 else acc2
    else acc

/-- fetch_all_data: the accumulated item list over a trace of page responses
(the n-th element of the trace is the outcome of the n-th request). -/
def fetch_all_data (trace : List PageResp) : List JVal :=
  fetchLoop trace []

/-- A well-formed catalog page response: HTTP 200 with a JSON object holding a
data array and a next_page_url cursor. -/
def goodPage (items : List JVal) (next : JVal) : PageResp :=
  .resp 200 (.ok (.obj [("data", .arr items), ("next_page_url", next)]))

/-- A page request outcome that terminates pagination: an exception, a non-200
status, or a body that fails to parse as JSON. -/
def failingPage : PageResp → Bool
  | .raised _ => true
  | .resp _ (.error _) => true
  | .resp st (.ok _) => st != 200

/-! ## The per-item loop of main (source lines 493-552) -/

/-- An entry of login_required_hacks (source lines 513-517). -/
structure LoginEntry where
  name : JVal
  authors : String
  url : JVal

/-- An entry of failed_hacks (source lines 521-524). -/
structure FailEntry where
  name : JVal
  error : Option String

/-- The per-difficulty statistics accumulator (source lines 462-472). -/
structure Stats where
  total_hacks : Nat
  downloaded : Nat
  failed_downloads : Nat
  requires_login : Nat
  total_bps : Nat
  patched : Nat
  failed_patches : Nat
  login_required_hacks : List LoginEntry
  failed_hacks : List FailEntry

def initStats : Stats :=
  { total_hacks := 0, downloaded := 0, failed_downloads := 0,
    requires_login := 0, total_bps := 0, patched := 0, failed_patches := 0,
    login_required_hacks := [], failed_hacks := [] }

/-- The author_names join at source lines 505-506, outside any try block:
raises on a non-iterable authors value, on non-dict elements and on non-str
names, exactly as the Python comprehension and str.join would. -/
def authorNames (authorsV : JVal) : Py String :=
  match authorsV with
  | .arr l => do
    let ns ← l.mapM (fun a => do (← pyGet a "name" (.str "Unknown")).asStr)
    pure (joinSep " & " ns)
  | .str s => if s = "" then .ok "" else .error "AttributeError: get on str"
  | .obj kvs => if kvs.isEmpty then .ok "" else .error "AttributeError: get on str"
  | _ => .error "TypeError: not iterable"

/-- The oracles for one run: the HTTP layer and the subprocess runner. -/
structure Env where
  http : String → HttpResp
  proc : List String → ProcOut

/-- The patch loop at source lines 536-543: counts successful and failed
patch applications over the extracted files, in order. -/
def patchLoop (patched_dir flips_path clean_rom : String)
    (proc : List String → ProcOut) (files : List String) : Nat × Nat :=
  files.foldl
    (fun acc f =>
      if (patch_bps_file f patched_dir flips_path clean_rom proc).1 then
        (acc.1 + 1, acc.2)
      else (acc.1, acc.2 + 1))
    (0, 0)

/-- The body of the per-item loop (source lines 493-546).  An uncaught Python
exception (get on a non-dict item, a malformed authors value) is an error
value: it aborts the whole partition run, as in the source. -/
def processItem (zip_dir bps_dir patched_dir flips_path clean_rom : String)
    (env : Env) (stats : Stats) (item : JVal) : Py Stats :=
  match pyGet item "name" (.str "Unknown") with
  | .error e => .error e
  | .ok hack_name =>
    match pyGet item "download_url" .null with
    | .error e => .error e
    | .ok download_url =>
      if download_url.truthy then
        let stats1 := { stats with total_hacks := stats.total_hacks + 1 }
        match pyGet item "authors" (.arr []) with
        | .error e => .error e
        | .ok authorsV =>
          match authorNames authorsV with
          | .error e => .error e
          | .ok author_names =>
            let result :=
              (download_and_extract_bps item download_url zip_dir bps_dir env.http).1
            if result.requires_login then
              .ok { stats1 with
                requires_login := stats1.requires_login + 1,
                login_required_hacks := stats1.login_required_hacks ++
                  [{ name := hack_name, authors := author_names, url := download_url }] }
            else if !result.download_success then
              .ok { stats1 with
                failed_downloads := stats1.failed_downloads + 1,
                failed_hacks := stats1.failed_hacks ++
                  [{ name := hack_name, error := result.error }] }
            else
              match patchLoop patched_dir flips_path clean_rom env.proc result.bps_files with
              | (ps, pf) =>
                .ok { stats1 with
                  downloaded := stats1.downloaded + 1,
                  total_bps := stats1.total_bps + result.bps_count,
                  patched := stats1.patched + ps,
                  failed_patches := stats1.failed_patches + pf }
      else .ok stats

/-- The whole item loop of one partition, starting from the zeroed
accumulator exactly as main initializes it. -/
def processItems (zip_dir bps_dir patched_dir flips_path clean_rom : String)
    (env : Env) (items : List JVal) : Py Stats :=
  items.foldlM (processItem zip_dir bps_dir patched_dir flips_path clean_rom env)
    initStats


/-- The download URL the per-item loop reads from a catalog item (source line
495); null when the item is not an object or has no such key. -/
def itemUrl (item : JVal) : JVal :=
  match item with
  | .obj kvs => (lookupKey kvs "download_url").getD .null
  | _ => .null

/-- The fields sub-object of a catalog item holding exactly the present
entries among type, difficulty and length. -/
def fieldsEntries (typeOpt diffOpt lenOpt : Option String) : List (String × JVal) :=
  (match typeOpt with | none => [] | some s => [("type", JVal.str s)]) ++
  (match diffOpt with | none => [] | some s => [("difficulty", JVal.str s)]) ++
  (match lenOpt with | none => [] | some s => [("length", JVal.str s)])

/-- A catalog metadata object with an arbitrary subset of the five metadata
fields present: absent options contribute no key at all (the fields
sub-object itself is omitted when all three of its entries are absent), so
every combination of missing fields is covered. -/
def mkCatalogItem (nameOpt : Option String) (authorsOpt : Option (List String))
    (typeOpt diffOpt lenOpt : Option String) : JVal :=
  .obj ((match nameOpt with | none => [] | some s => [("name", JVal.str s)]) ++
        (match authorsOpt with
         | none => []
         | some l => [("authors",
             JVal.arr (l.map (fun a => JVal.obj [("name", JVal.str a)])))]) ++
        (if (fieldsEntries typeOpt diffOpt lenOpt).isEmpty then []
         else [("fields", JVal.obj (fieldsEntries typeOpt diffOpt lenOpt))]))

/-- A well-formed catalog item as the remote API serves it: a name, one
author, and a download URL. -/
def mkItem (name author url : String) : JVal :=
  .obj [("name", .str name),
        ("authors", .arr [.obj [("name", .str author)]]),
        ("download_url", .str url)]

/-! ## Helper lemmas: str.replace cancellation and hash shape -/

theorem hasSub_ne_nil {t p : List Char} (hp : p ≠ []) (h : hasSub t p = true) :
    t ≠ [] := by
  intro ht
  subst ht
  cases p with
  | nil => exact hp rfl
  | cons a as => simp [hasSub, List.isPrefixOf] at h

theorem replFuel_cancel {p s1 s2 : List Char} (hp : p ≠ [])
    (hl : s1.length = s2.length) :
    ∀ (f : Nat) (t : List Char), t.length ≤ f → hasSub t p = true →
      replFuel p s1 f t = replFuel p s2 f t → s1 = s2 := by
  intro f
  induction f with
  | zero =>
    intro t hf hs _
    have ht : t = [] := List.length_eq_zero.mp (Nat.le_zero.mp hf)
    exact absurd rfl (by subst ht; exact hasSub_ne_nil hp hs)
  | succ f ih =>
    intro t hf hs he
    match t with
    | [] => exact absurd rfl (hasSub_ne_nil hp hs)
    | c :: t2 =>
      by_cases hpre : p.isPrefixOf (c :: t2) = true
      · simp only [replFuel, hpre, if_true] at he
        exact List.append_inj_left he hl
      · simp only [replFuel, hpre, if_false, Bool.false_eq_true, List.cons.injEq,
          true_and] at he
        simp only [hasSub, hpre, Bool.false_or] at hs
        exact ih t2 (Nat.le_of_succ_le_succ hf) hs he

theorem replFuel_length_cong {p s1 s2 : List Char} (hl : s1.length = s2.length) :
    ∀ f t, (replFuel p s1 f t).length = (replFuel p s2 f t).length := by
  intro f
  induction f with
  | zero => intro t; rfl
  | succ f ih =>
    intro t
    match t with
    | [] => rfl
    | c :: t2 =>
      by_cases hpre : p.isPrefixOf (c :: t2) = true
      · simp only [replFuel, hpre, if_true, List.length_append, hl, ih]
      · simp only [replFuel, hpre, Bool.false_eq_true, if_false, List.length_cons, ih]

theorem pyReplace_cancel {t p s1 s2 : String} (hp : p.data ≠ [])
    (hl : s1.data.length = s2.data.length) (ho : hasSub t.data p.data = true)
    (he : pyReplace t p s1 = pyReplace t p s2) : s1 = s2 := by
  rcases hq : p.data with _ | ⟨a, as⟩
  · exact absurd hq hp
  · simp only [pyReplace, hq] at he
    have hd := congrArg String.data he
    simp only at hd
    rw [← hq] at hd
    exact String.ext (replFuel_cancel hp hl t.data.length t.data (Nat.le_refl _) ho hd)

theorem md5Bytes_length (msg : List Nat) : (md5Bytes msg).length = 16 := by
  rcases hf : List.foldl md5Block (0x67452301, 0xefcdab89, 0x98badcfe, 0x10325476)
      (chunks64 (md5Pad msg).length (md5Pad msg)) with ⟨a, b, c, d⟩
  simp [md5Bytes, hf, toLE4]

theorem hexdigest_data_length (bytes : List Nat) :
    (hexdigest bytes).data.length = 2 * bytes.length := by
  induction bytes with
  | nil => rfl
  | cons b t ih =>
    have hd : (hexdigest (b :: t)).data = byteHex b ++ (hexdigest t).data := rfl
    rw [hd, List.length_append, ih, List.length_cons]
    simp only [byteHex, List.length_cons, List.length_nil]
    omega

theorem get_short_hash_data_length (data : List Nat) :
    (get_short_hash data).data.length = 6 := by
  have h1 := hexdigest_data_length (md5Bytes data)
  rw [md5Bytes_length] at h1
  simp [get_short_hash, List.length_take, h1]

theorem hexDigitChar_mem (n : Nat) : hexDigitChar n ∈ "0123456789abcdef".data := by
  unfold hexDigitChar
  rcases Nat.lt_or_ge n ("0123456789abcdef".data.length) with h | h
  · rw [List.getD_eq_getElem _ _ h]
    exact List.getElem_mem h
  · rw [List.getD_eq_default _ _ h]
    decide

theorem hexdigest_mem (bytes : List Nat) :
    ∀ c ∈ (hexdigest bytes).data, c ∈ "0123456789abcdef".data := by
  induction bytes with
  | nil => intro c hc; simp [hexdigest] at hc
  | cons b t ih =>
    intro c hc
    simp only [hexdigest, List.foldr_cons, byteHex, List.cons_append, List.nil_append,
      List.mem_cons] at hc
    rcases hc with h | h | h
    · subst h; exact hexDigitChar_mem _
    · subst h; exact hexDigitChar_mem _
    · exact ih c h

theorem get_short_hash_mem (data : List Nat) :
    ∀ c ∈ (get_short_hash data).data, c ∈ "0123456789abcdef".data := by
  intro c hc
  simp only [get_short_hash] at hc
  exact hexdigest_mem _ c (List.mem_of_mem_take hc)


/-! ## Helper lemmas: extraction and download characterization -/

theorem extractLoop_ok (n : Nat) (base dec dir : String)
    (ms : List (String × List Nat)) :
    extractLoop n base dec dir (ms.map (fun m => (m.1, Except.ok m.2)))
      = (ms.map (fun m => posixJoin dir (newBpsName n base dec m.2)),
         ms.map (fun m => (posixJoin dir (newBpsName n base dec m.2), m.2)),
         none) := by
  induction ms with
  | nil => rfl
  | cons m t ih => simp [extractLoop, ih]

theorem bpsMembersOf_map_ok (ms : List (String × List Nat)) :
    bpsMembersOf (ms.map (fun m => (m.1, (Except.ok m.2 : Except ExtErr (List Nat)))))
      = (bpsMembersOf ms).map (fun m => (m.1, Except.ok m.2)) := by
  unfold bpsMembersOf
  rw [List.filter_map]
  rfl

theorem download_403 (item : JVal) (u zip_dir bps_dir : String)
    (http : String → HttpResp) (blob : ZipBlob)
    (h : http u = .resp 403 blob) :
    download_and_extract_bps item (.str u) zip_dir bps_dir http
      = ({ emptyResult with
            requires_login := true,
            error := some "Requires login (age verification)" }, []) := by
  simp only [download_and_extract_bps, h]
  norm_num

theorem download_non200 (item : JVal) (u zip_dir bps_dir : String)
    (http : String → HttpResp) (st : Nat) (blob : ZipBlob)
    (h : http u = .resp st blob) (h403 : st ≠ 403) (h200 : st ≠ 200) :
    download_and_extract_bps item (.str u) zip_dir bps_dir http
      = ({ emptyResult with error := some ("HTTP " ++ toString st) }, []) := by
  simp only [download_and_extract_bps, h]
  simp [h403, h200]

theorem download_raised (item : JVal) (u zip_dir bps_dir : String)
    (http : String → HttpResp) (m : String)
    (h : http u = .raised m) :
    download_and_extract_bps item (.str u) zip_dir bps_dir http
      = ({ emptyResult with error := some ("Processing error: " ++ m) }, []) := by
  simp only [download_and_extract_bps, h]

theorem download_notzip (item : JVal) (u zip_dir bps_dir : String)
    (http : String → HttpResp)
    (h : http u = .resp 200 .notZip) :
    download_and_extract_bps item (.str u) zip_dir bps_dir http
      = ({ emptyResult with
            download_success := true,
            error := some "Invalid ZIP file" }, []) := by
  simp only [download_and_extract_bps, h]
  norm_num

theorem download_200_members (item : JVal) (u zip_dir bps_dir : String)
    (http : String → HttpResp) (ms : List (String × List Nat))
    (h : http u = .resp 200 (.zipOf (ms.map (fun m => (m.1, Except.ok m.2))))) :
    download_and_extract_bps item (.str u) zip_dir bps_dir http
      = ({ emptyResult with
            download_success := true,
            success := true,
            bps_count := (bpsMembersOf ms).length,
            bps_files := (bpsMembersOf ms).map (fun m =>
              posixJoin bps_dir (newBpsName (bpsMembersOf ms).length
                (format_filename item (lastSlashSegment u))
                (pyUnquote (lastSlashSegment u)) m.2)) },
         (bpsMembersOf ms).map (fun m =>
           (posixJoin bps_dir (newBpsName (bpsMembersOf ms).length
              (format_filename item (lastSlashSegment u))
              (pyUnquote (lastSlashSegment u)) m.2), m.2))) := by
  simp only [download_and_extract_bps, h]
  norm_num
  rw [bpsMembersOf_map_ok]
  rcases hsel : bpsMembersOf ms with _ | ⟨m0, tl⟩
  · simp [hsel, emptyResult]
  · rw [← hsel]
    have hne : ((bpsMembersOf ms).map (fun m =>
        (m.1, (Except.ok m.2 : Except ExtErr (List Nat))))).isEmpty = false := by
      rw [hsel]
      rfl
    rw [hne]
    simp only [Bool.false_eq_true, if_false, List.length_map, extractLoop_ok]

/-! ## Helper lemmas: patch loop, pagination loop, item loop -/

theorem patchLoop_foldl_sum (pd fp cr : String) (proc : List String → ProcOut)
    (files : List String) :
    ∀ init : Nat × Nat,
      (files.foldl (fun acc f =>
        if (patch_bps_file f pd fp cr proc).1 then (acc.1 + 1, acc.2)
        else (acc.1, acc.2 + 1)) init).1
      + (files.foldl (fun acc f =>
        if (patch_bps_file f pd fp cr proc).1 then (acc.1 + 1, acc.2)
        else (acc.1, acc.2 + 1)) init).2
      = init.1 + init.2 + files.length := by
  induction files with
  | nil => intro init; simp
  | cons f t ih =>
    intro init
    simp only [List.foldl_cons, List.length_cons]
    by_cases hp : (patch_bps_file f pd fp cr proc).1 = true
    · simp only [hp, if_true]
      rw [ih]
      omega
    · simp only [hp, Bool.false_eq_true, if_false]
      rw [ih]
      omega

theorem patchLoop_sum (pd fp cr : String) (proc : List String → ProcOut)
    (files : List String) :
    (patchLoop pd fp cr proc files).1 + (patchLoop pd fp cr proc files).2
      = files.length := by
  unfold patchLoop
  rw [patchLoop_foldl_sum]
  simp

theorem fetchLoop_goodPage (p : List JVal) (next : JVal) (rest : List PageResp)
    (acc : List JVal) (hnext : next.truthy = true) :
    fetchLoop (goodPage p next :: rest) acc = fetchLoop rest (acc ++ p) := by
  simp [fetchLoop, goodPage, pyGet, lookupKey, pyExtendJ, hnext]

theorem fetchLoop_goodPages (pages : List (List JVal)) (tail : List PageResp)
    (acc : List JVal) :
    fetchLoop (pages.map (fun p => goodPage p (.str "next")) ++ tail) acc
      = fetchLoop tail (acc ++ pages.flatten) := by
  induction pages generalizing acc with
  | nil => simp
  | cons p ps ih =>
    simp only [List.map_cons, List.cons_append, List.flatten_cons]
    rw [fetchLoop_goodPage _ _ _ _ (by rfl), ih, List.append_assoc]

theorem fetchLoop_lastPage (p : List JVal) (acc : List JVal) :
    fetchLoop [goodPage p .null] acc = acc ++ p := by
  simp [fetchLoop, goodPage, pyGet, lookupKey, pyExtendJ, JVal.truthy]

theorem fetchLoop_failing (r : PageResp) (rest : List PageResp) (acc : List JVal)
    (hr : failingPage r = true) :
    fetchLoop (r :: rest) acc = acc := by
  match r with
  | .raised m => rfl
  | .resp st (.error e) => by_cases h : st = 200 <;> simp [fetchLoop, h]
  | .resp st (.ok j) =>
    simp only [failingPage, bne_iff_ne, ne_eq] at hr
    simp [fetchLoop, hr]

theorem processItem_skip (zd bd pd fp cr : String) (env : Env) (stats : Stats)
    (kvs : List (String × JVal))
    (hurl : ((lookupKey kvs "download_url").getD .null).truthy = false) :
    processItem zd bd pd fp cr env stats (.obj kvs) = .ok stats := by
  simp [processItem, pyGet, hurl]

theorem pyBind_ok {A B : Type} (a : A) (f : A → Py B) :
    ((Except.ok a : Py A) >>= f) = f a := rfl

theorem itemUrl_of_pyGet (item v : JVal)
    (h : pyGet item "download_url" .null = .ok v) : itemUrl item = v := by
  cases item <;> simp [pyGet, itemUrl] at h ⊢ <;> exact h

theorem processItem_inv1 (zd bd pd fp cr : String) (env : Env)
    (stats s2 : Stats) (item : JVal)
    (h : processItem zd bd pd fp cr env stats item = .ok s2)
    (hs : stats.total_hacks
      = stats.downloaded + stats.failed_downloads + stats.requires_login) :
    s2.total_hacks = s2.downloaded + s2.failed_downloads + s2.requires_login := by
  unfold processItem at h
  dsimp only at h
  repeat' split at h
  all_goals try exact Except.noConfusion h
  all_goals (injection h with h; subst h)
  all_goals (try dsimp only)
  all_goals omega

theorem processItem_inv2 (zd bd pd fp cr : String) (env : Env)
    (stats s2 : Stats) (item : JVal)
    (h : processItem zd bd pd fp cr env stats item = .ok s2)
    (hc : ((download_and_extract_bps item (itemUrl item) zd bd env.http).1).bps_count
        = ((download_and_extract_bps item (itemUrl item) zd bd env.http).1).bps_files.length)
    (hs : stats.patched + stats.failed_patches = stats.total_bps) :
    s2.patched + s2.failed_patches = s2.total_bps := by
  unfold processItem at h
  dsimp only at h
  repeat' split at h
  all_goals try exact Except.noConfusion h
  all_goals (injection h with h; subst h)
  all_goals (try dsimp only)
  all_goals try omega
  all_goals rename_i u1 e1 htr xa av ea xs an ea2 hrl hdl
  all_goals
    (have hsum := patchLoop_sum pd fp cr env.proc
        ((download_and_extract_bps item u1 zd bd env.http).1).bps_files
     rw [itemUrl_of_pyGet item u1 e1] at hc
     omega)

theorem processItem_counted (zd bd pd fp cr : String) (env : Env)
    (stats s2 : Stats) (item : JVal) (kvs : List (String × JVal))
    (hitem : item = .obj kvs)
    (hurl : ((lookupKey kvs "download_url").getD .null).truthy = true)
    (h : processItem zd bd pd fp cr env stats item = .ok s2) :
    s2.total_hacks = stats.total_hacks + 1 ∧
    ((s2.requires_login = stats.requires_login + 1 ∧
        s2.failed_downloads = stats.failed_downloads ∧
        s2.downloaded = stats.downloaded) ∨
     (s2.requires_login = stats.requires_login ∧
        s2.failed_downloads = stats.failed_downloads + 1 ∧
        s2.downloaded = stats.downloaded) ∨
     (s2.requires_login = stats.requires_login ∧
        s2.failed_downloads = stats.failed_downloads ∧
        s2.downloaded = stats.downloaded + 1)) := by
  subst hitem
  unfold processItem at h
  simp only [pyGet, hurl] at h
  repeat' split at h
  all_goals try exact absurd trivial (by assumption)
  all_goals try exact Except.noConfusion h
  all_goals (injection h with h; subst h)
  all_goals (try dsimp only)
  all_goals simp

theorem foldlM_inv (zd bd pd fp cr : String) (env : Env) (P : Stats → Prop)
    (items : List JVal)
    (hP : ∀ stats s2 item, item ∈ items →
      processItem zd bd pd fp cr env stats item = .ok s2 → P stats → P s2) :
    ∀ (stats s : Stats),
      List.foldlM (processItem zd bd pd fp cr env) stats items = .ok s →
      P stats → P s := by
  induction items with
  | nil =>
    intro stats s h hp
    simp only [List.foldlM_nil] at h
    have h2 : Except.ok stats = Except.ok s := h
    injection h2 with h2
    subst h2
    exact hp
  | cons i t ih =>
    intro stats s h hp
    rw [List.foldlM_cons] at h
    cases hi : processItem zd bd pd fp cr env stats i with
    | error e =>
      rw [hi] at h
      exact Except.noConfusion (show Except.error e = Except.ok s from h)
    | ok s1 =>
      rw [hi] at h
      exact ih (fun a b j hj hab => hP a b j (List.mem_cons_of_mem _ hj) hab) s1 s h
        (hP stats s1 i (List.mem_cons_self _ _) hi hp)

theorem processItem_403 (zd bd pd fp cr : String) (env : Env) (stats : Stats)
    (n a u : String) (blob : ZipBlob)
    (hu : u ≠ "") (h : env.http u = .resp 403 blob) :
    processItem zd bd pd fp cr env stats (mkItem n a u)
      = .ok { stats with
          total_hacks := stats.total_hacks + 1,
          requires_login := stats.requires_login + 1,
          login_required_hacks := stats.login_required_hacks ++
            [{ name := .str n, authors := a, url := .str u }] } := by
  unfold processItem mkItem
  simp only [pyGet, lookupKey, String.reduceEq, reduceIte, Option.getD_some]
  rw [download_403 _ u zd bd env.http blob h]
  simp [JVal.truthy, hu, authorNames, pyGet, lookupKey, JVal.asStr, joinSep, emptyResult]
  rfl

theorem processItem_dl_single (zd bd pd fp cr : String) (env : Env) (stats : Stats)
    (n a u mname : String) (bytes : List Nat) (o e : String)
    (hu : u ≠ "")
    (hm : pyEndsWith (pyLower mname) ".bps" = true)
    (h : env.http u = .resp 200 (.zipOf [(mname, .ok bytes)]))
    (hp : env.proc (flipsCmd fp
        (posixJoin bd (newBpsName 1
          (format_filename (mkItem n a u) (lastSlashSegment u))
          (pyUnquote (lastSlashSegment u)) bytes)) cr pd) = .ret 0 o e) :
    processItem zd bd pd fp cr env stats (mkItem n a u)
      = .ok { stats with
          total_hacks := stats.total_hacks + 1,
          downloaded := stats.downloaded + 1,
          total_bps := stats.total_bps + 1,
          patched := stats.patched + 1 } := by
  have hdl := download_200_members (mkItem n a u) u zd bd env.http [(mname, bytes)]
    (by exact h)
  have hsel : bpsMembersOf [(mname, bytes)] = [(mname, bytes)] := by
    simp [bpsMembersOf, hm]
  rw [hsel] at hdl
  simp only [mkItem] at hdl hp
  unfold processItem
  simp only [mkItem, pyGet, lookupKey, String.reduceEq, reduceIte, Option.getD_some]
  rw [hdl]
  simp only [JVal.truthy, bne_iff_ne, ne_eq, hu, not_false_eq_true, if_true]
  simp only [emptyResult]
  simp only [List.length_cons, List.length_nil, List.map_cons, List.map_nil,
    Nat.zero_add]
  simp only [patchLoop, List.foldl_cons, List.foldl_nil, patch_bps_file, hp]
  norm_num
  rfl

theorem processItem_invalidzip (zd bd pd fp cr : String) (env : Env) (stats : Stats)
    (n a u : String)
    (hu : u ≠ "")
    (h : env.http u = .resp 200 .notZip) :
    processItem zd bd pd fp cr env stats (mkItem n a u)
      = .ok { stats with
          total_hacks := stats.total_hacks + 1,
          downloaded := stats.downloaded + 1 } := by
  have hdl := download_notzip (mkItem n a u) u zd bd env.http h
  simp only [mkItem] at hdl
  unfold processItem
  simp only [mkItem, pyGet, lookupKey, String.reduceEq, reduceIte, Option.getD_some]
  rw [hdl]
  simp [JVal.truthy, hu, authorNames, pyGet, lookupKey, JVal.asStr, joinSep,
    emptyResult, patchLoop]
  rfl

theorem sanitize_Unknown : sanitize_filename "Unknown" = "Unknown" := rfl

theorem authors_mapM (l : List String) :
    (List.mapM (fun a => do
        let ns ← (← pyGet a "name" (.str "Unknown")).asStr
        pure (sanitize_filename ns))
      (l.map (fun a => JVal.obj [("name", JVal.str a)])) : Py (List String))
      = Except.ok (l.map sanitize_filename) := by
  induction l with
  | nil => rfl
  | cons a t ih =>
    simp only [List.map_cons, List.mapM_cons, ih]
    rfl

theorem authorsString_mk (l : List String) :
    authorsString (.arr (l.map (fun a => JVal.obj [("name", JVal.str a)])))
      = .ok (if l.isEmpty then "Unknown" else joinSep " & " (l.map sanitize_filename)) := by
  cases l with
  | nil => rfl
  | cons a t =>
    have htr : (JVal.arr ((a :: t).map (fun a => JVal.obj [("name", JVal.str a)]))).truthy
        = true := by simp [JVal.truthy]
    simp only [authorsString, htr, if_true]
    rw [authors_mapM (a :: t)]
    simp [pyBind_ok, List.isEmpty_cons]

theorem authorsString_default : authorsString (.arr []) = .ok "Unknown" := rfl

theorem pyPure {A : Type} (a : A) : (pure a : Py A) = Except.ok a := rfl

/-! ## Claim theorems -/

/-- C4: a download answered with HTTP 403 produces the access-denied outcome:
requires_login true, download-success false, overall success false, zero
extracted files, an empty extracted list, the fixed login/age-verification
message, and nothing written to the patch directory. -/
theorem c4_http403_access_denied (item : JVal) (u zip_dir bps_dir : String)
    (http : String → HttpResp) (blob : ZipBlob)
    (h : http u = .resp 403 blob) :
    (download_and_extract_bps item (.str u) zip_dir bps_dir http).1.requires_login = true ∧
    (download_and_extract_bps item (.str u) zip_dir bps_dir http).1.download_success = false ∧
    (download_and_extract_bps item (.str u) zip_dir bps_dir http).1.success = false ∧
    (download_and_extract_bps item (.str u) zip_dir bps_dir http).1.bps_count = 0 ∧
    (download_and_extract_bps item (.str u) zip_dir bps_dir http).1.bps_files = [] ∧
    (download_and_extract_bps item (.str u) zip_dir bps_dir http).1.error
      = some "Requires login (age verification)" ∧
    (download_and_extract_bps item (.str u) zip_dir bps_dir http).2 = [] := by
  rw [download_403 item u zip_dir bps_dir http blob h]
  exact ⟨rfl, rfl, rfl, rfl, rfl, rfl, rfl⟩

/-- Witness for C4: the theorem applied to a concrete 403 response. -/
theorem c4_http403_access_denied_witness :
    ((fun _ : String => HttpResp.resp 403 ZipBlob.notZip) "http://s/h.zip"
      = HttpResp.resp 403 ZipBlob.notZip) ∧
    (download_and_extract_bps (JVal.obj []) (.str "http://s/h.zip") "z" "b"
        (fun _ => HttpResp.resp 403 ZipBlob.notZip)).1.requires_login = true ∧
    (download_and_extract_bps (JVal.obj []) (.str "http://s/h.zip") "z" "b"
        (fun _ => HttpResp.resp 403 ZipBlob.notZip)).1.download_success = false :=
  ⟨rfl,
   (c4_http403_access_denied (JVal.obj []) "http://s/h.zip" "z" "b"
     (fun _ => HttpResp.resp 403 ZipBlob.notZip) ZipBlob.notZip rfl).1,
   (c4_http403_access_denied (JVal.obj []) "http://s/h.zip" "z" "b"
     (fun _ => HttpResp.resp 403 ZipBlob.notZip) ZipBlob.notZip rfl).2.1⟩

/-- C9: an HTTP 200 download whose archive opens but holds zero patch-format
members is a successful fetch: success true, download-success true, count
zero, empty extracted list, no error, not access-denied, no writes. -/
theorem c9_no_patch_members_success (item : JVal) (u zip_dir bps_dir : String)
    (http : String → HttpResp) (members : List (String × Except ExtErr (List Nat)))
    (h : http u = .resp 200 (.zipOf members))
    (hno : bpsMembersOf members = []) :
    download_and_extract_bps item (.str u) zip_dir bps_dir http
      = ({ success := true, download_success := true, bps_count := 0,
           bps_files := [], error := none, requires_login := false }, []) := by
  simp only [download_and_extract_bps, h]
  norm_num
  rw [hno]
  rfl

/-- Witness for C9: a concrete archive with one non-patch member. -/
theorem c9_no_patch_members_success_witness :
    ((fun _ : String => HttpResp.resp 200 (ZipBlob.zipOf [("readme.txt", .ok [1])]))
        "http://s/h.zip" = HttpResp.resp 200 (.zipOf [("readme.txt", .ok [1])])) ∧
    bpsMembersOf [("readme.txt", (Except.ok [1] : Except ExtErr (List Nat)))] = [] ∧
    download_and_extract_bps (JVal.obj []) (.str "http://s/h.zip") "z" "b"
        (fun _ => HttpResp.resp 200 (ZipBlob.zipOf [("readme.txt", .ok [1])]))
      = ({ success := true, download_success := true, bps_count := 0,
           bps_files := [], error := none, requires_login := false }, []) :=
  ⟨rfl, rfl,
   c9_no_patch_members_success (JVal.obj []) "http://s/h.zip" "z" "b"
     (fun _ => HttpResp.resp 200 (ZipBlob.zipOf [("readme.txt", .ok [1])]))
     [("readme.txt", .ok [1])] rfl rfl⟩

/-- C8: extraction over a valid archive whose members all read correctly
selects exactly the members whose lowercased names end in .bps, writes each
selected member out, and records their paths and total count. -/
theorem c8_extracts_exactly_bps_members (item : JVal) (u zip_dir bps_dir : String)
    (http : String → HttpResp) (ms : List (String × List Nat))
    (h : http u = .resp 200 (.zipOf (ms.map (fun m => (m.1, Except.ok m.2))))) :
    bpsMembersOf ms = ms.filter (fun m => pyEndsWith (pyLower m.1) ".bps") ∧
    (download_and_extract_bps item (.str u) zip_dir bps_dir http).1.bps_files
      = (bpsMembersOf ms).map (fun m => posixJoin bps_dir
          (newBpsName (bpsMembersOf ms).length
            (format_filename item (lastSlashSegment u))
            (pyUnquote (lastSlashSegment u)) m.2)) ∧
    (download_and_extract_bps item (.str u) zip_dir bps_dir http).2
      = (bpsMembersOf ms).map (fun m => (posixJoin bps_dir
          (newBpsName (bpsMembersOf ms).length
            (format_filename item (lastSlashSegment u))
            (pyUnquote (lastSlashSegment u)) m.2), m.2)) ∧
    (download_and_extract_bps item (.str u) zip_dir bps_dir http).1.bps_count
      = (bpsMembersOf ms).length := by
  rw [download_200_members item u zip_dir bps_dir http ms h]
  exact ⟨rfl, rfl, rfl, rfl⟩

/-- Witness for C8: the two .bps members (one uppercase) of a three-member
archive are selected, the .txt member is ignored. -/
theorem c8_extracts_exactly_bps_members_witness :
    ((fun _ : String => HttpResp.resp 200 (ZipBlob.zipOf
        [("a.bps", .ok [1]), ("B.BPS", .ok [2, 3]), ("readme.txt", .ok [4])]))
        "http://s/p.zip"
      = HttpResp.resp 200 (.zipOf
          ([("a.bps", [1]), ("B.BPS", [2, 3]), ("readme.txt", ([4] : List Nat))].map
            (fun m => (m.1, Except.ok m.2))))) ∧
    (download_and_extract_bps (JVal.obj []) (.str "http://s/p.zip") "z" "b"
        (fun _ => HttpResp.resp 200 (ZipBlob.zipOf
          [("a.bps", .ok [1]), ("B.BPS", .ok [2, 3]), ("readme.txt", .ok [4])]))).1.bps_count
      = 2 :=
  ⟨rfl,
   by
     have hc := (c8_extracts_exactly_bps_members (JVal.obj []) "http://s/p.zip" "z" "b"
       (fun _ => HttpResp.resp 200 (ZipBlob.zipOf
         [("a.bps", .ok [1]), ("B.BPS", .ok [2, 3]), ("readme.txt", .ok [4])]))
       [("a.bps", [1]), ("B.BPS", [2, 3]), ("readme.txt", [4])] rfl).2.2.2
     rw [hc]
     decide⟩

/-- C5: an HTTP 200 download that is not a valid zip container records the
invalid-archive error without re-raising, keeps download-success true, and the
orchestrator counts the item as downloaded, not as a failed download. -/
theorem c5_invalid_zip_counts_downloaded (zd bd pd fp cr : String) (env : Env)
    (stats : Stats) (n a u : String) (hu : u ≠ "")
    (h : env.http u = .resp 200 .notZip) :
    (download_and_extract_bps (mkItem n a u) (.str u) zd bd env.http).1.error
      = some "Invalid ZIP file" ∧
    (download_and_extract_bps (mkItem n a u) (.str u) zd bd env.http).1.download_success
      = true ∧
    (download_and_extract_bps (mkItem n a u) (.str u) zd bd env.http).1.success = false ∧
    processItem zd bd pd fp cr env stats (mkItem n a u)
      = .ok { stats with
          total_hacks := stats.total_hacks + 1,
          downloaded := stats.downloaded + 1 } := by
  have hdl := download_notzip (mkItem n a u) u zd bd env.http h
  refine ⟨?_, ?_, ?_, processItem_invalidzip zd bd pd fp cr env stats n a u hu h⟩ <;>
    rw [hdl] <;> rfl

/-- Witness for C5: a concrete corrupt download is counted as downloaded. -/
theorem c5_invalid_zip_counts_downloaded_witness :
    ("http://s/h.zip" ≠ "") ∧
    processItem "z" "b" "p" "f" "c"
        { http := fun _ => HttpResp.resp 200 ZipBlob.notZip, proc := fun _ => .ret 0 "" "" }
        initStats (mkItem "Hack" "Auth" "http://s/h.zip")
      = .ok { initStats with
              total_hacks := initStats.total_hacks + 1,
              downloaded := initStats.downloaded + 1 } :=
  ⟨by decide,
   (c5_invalid_zip_counts_downloaded "z" "b" "p" "f" "c"
     { http := fun _ => HttpResp.resp 200 ZipBlob.notZip, proc := fun _ => .ret 0 "" "" }
     initStats "Hack" "Auth" "http://s/h.zip" (by decide) rfl).2.2.2⟩

/-- C3: pagination returns the concatenation of the data arrays of the pages
in arrival order, item order preserved; a failing request (exception, non-200
status, or unparseable body) terminates pagination at once with no retry,
surfacing exactly the items accumulated from the pages fetched before it. -/
theorem c3_pagination_concat_and_partial :
    (∀ (pages : List (List JVal)) (last : List JVal),
      fetch_all_data (pages.map (fun p => goodPage p (.str "next")) ++ [goodPage last .null])
        = pages.flatten ++ last) ∧
    (∀ (pages : List (List JVal)) (bad : PageResp) (rest : List PageResp),
      failingPage bad = true →
      fetch_all_data (pages.map (fun p => goodPage p (.str "next")) ++ bad :: rest)
        = pages.flatten) := by
  constructor
  · intro pages last
    unfold fetch_all_data
    rw [fetchLoop_goodPages pages [goodPage last .null] [], fetchLoop_lastPage]
    simp
  · intro pages bad rest hbad
    unfold fetch_all_data
    rw [fetchLoop_goodPages pages (bad :: rest) [], fetchLoop_failing bad rest _ hbad]
    simp

/-- Witness for C3: a three-page catalog concatenates in order; a 500 on the
second request returns exactly the first page. -/
theorem c3_pagination_concat_and_partial_witness :
    failingPage (PageResp.resp 500 (Except.ok JVal.null)) = true ∧
    fetch_all_data [goodPage [JVal.str "a", JVal.str "b"] (.str "next"),
        goodPage [JVal.str "c"] (.str "next"), goodPage [JVal.str "d"] .null]
      = [JVal.str "a", JVal.str "b", JVal.str "c", JVal.str "d"] ∧
    fetch_all_data [goodPage [JVal.str "a"] (.str "next"),
        PageResp.resp 500 (Except.ok JVal.null), goodPage [JVal.str "zz"] .null]
      = [JVal.str "a"] :=
  ⟨rfl,
   by
     have h := c3_pagination_concat_and_partial.1
       [[JVal.str "a", JVal.str "b"], [JVal.str "c"]] [JVal.str "d"]
     simpa using h,
   by
     have h := c3_pagination_concat_and_partial.2 [[JVal.str "a"]]
       (PageResp.resp 500 (Except.ok JVal.null)) [goodPage [JVal.str "zz"] .null] rfl
     simpa using h⟩

/-- C6: the naming engine never raises.  For every combination of present and
absent metadata fields (name, authors, type, difficulty, length), with
arbitrary values for the present ones, the composite name carries the
placeholder token Unknown exactly in the slots of the absent fields; and
whenever the composite construction raises, the function returns the
sanitized decoded original filename, which always succeeds. -/
theorem c6_format_filename_placeholders_and_fallback :
    (∀ (nameOpt : Option String) (authorsOpt : Option (List String))
       (typeOpt diffOpt lenOpt : Option String) (orig : String),
      format_filename (mkCatalogItem nameOpt authorsOpt typeOpt diffOpt lenOpt) orig
        = joinSep " - "
            [(match nameOpt with | none => "Unknown" | some s => sanitize_filename s),
             (match authorsOpt with
              | none => "Unknown"
              | some l => if l.isEmpty then "Unknown"
                  else joinSep " & " (l.map sanitize_filename)),
             (match typeOpt with | none => "Unknown" | some s => sanitize_filename s),
             (match diffOpt with | none => "Unknown" | some s => sanitize_filename s),
             (match lenOpt with | none => "Unknown" | some s => sanitize_filename s),
             pyUnquote orig]) ∧
    (∀ (item : JVal) (orig e : String),
      formatBody item orig = .error e →
      format_filename item orig = sanitize_filename (pyUnquote orig)) := by
  constructor
  · intro nameOpt authorsOpt typeOpt diffOpt lenOpt orig
    rcases authorsOpt with _ | l
    · rcases nameOpt with _ | ns <;>
        rcases typeOpt with _ | ts <;>
        rcases diffOpt with _ | ds <;>
        rcases lenOpt with _ | ls <;>
        rfl
    · rcases nameOpt with _ | ns <;>
        rcases typeOpt with _ | ts <;>
        rcases diffOpt with _ | ds <;>
        rcases lenOpt with _ | ls <;>
        simp only [format_filename, formatBody, mkCatalogItem, fieldsEntries,
          List.cons_append, List.nil_append, List.append_nil, List.isEmpty_cons,
          List.isEmpty_nil, Bool.false_eq_true, if_false, if_true, reduceIte,
          pyGet, lookupKey, String.reduceEq, Option.getD_some, Option.getD_none,
          JVal.asStr, pyBind_ok, pyPure, authorsString_mk, joinSep, sanitize_Unknown]
  · intro item orig e he
    unfold format_filename
    rw [he]

/-- Witness for C6: a non-string name raises inside the body and the fallback
name is produced; an item missing the authors, difficulty and length fields
gets the placeholder in exactly those slots. -/
theorem c6_format_filename_placeholders_and_fallback_witness :
    formatBody (JVal.obj [("name", JVal.num 3)]) "Hack%20One.zip"
      = .error "TypeError: expected str" ∧
    format_filename (JVal.obj [("name", JVal.num 3)]) "Hack%20One.zip"
      = sanitize_filename (pyUnquote "Hack%20One.zip") ∧
    format_filename (mkCatalogItem (some "Cool: Hack") none (some "Standard") none none)
        "Hack%20One.zip"
      = joinSep " - " [sanitize_filename "Cool: Hack", "Unknown",
          sanitize_filename "Standard", "Unknown", "Unknown", pyUnquote "Hack%20One.zip"] :=
  ⟨rfl,
   c6_format_filename_placeholders_and_fallback.2
     (JVal.obj [("name", JVal.num 3)]) "Hack%20One.zip" "TypeError: expected str" rfl,
   c6_format_filename_placeholders_and_fallback.1
     (some "Cool: Hack") none (some "Standard") none none "Hack%20One.zip"⟩

/-- C2 counterexample: for the extracted patch named a.bps tweak.bps the
output path handed to the external tool replaces both occurrences of .bps,
differing from the suffix-replacement the claim states. -/
theorem c2_counterexample :
    (flipsCmd "./flips" "bps/a.bps tweak.bps" "clean.smc" "out").getD 4 ""
      = "out/a.smc tweak.smc" ∧
    (flipsCmd "./flips" "bps/a.bps tweak.bps" "clean.smc" "out").getD 4 ""
      ≠ posixJoin "out" (specPatchOutputName (lastSlashSegment "bps/a.bps tweak.bps")) := by
  exact ⟨by decide, by decide⟩

/-- C2 amended: the output path passed to the tool is the patch basename with
every occurrence of .bps replaced by .smc inside the patched directory (equal
to suffix replacement when .bps occurs only as the suffix); the call returns
True exactly when the process exits zero; a nonzero exit logs the captured
standard error; an invocation error returns False. -/
theorem c2_patch_adapter (bps_path patched_dir flips_path clean_rom : String)
    (proc : List String → ProcOut) :
    (flipsCmd flips_path bps_path clean_rom patched_dir).getD 4 ""
      = posixJoin patched_dir (pyReplace (lastSlashSegment bps_path) ".bps" ".smc") ∧
    (patch_bps_file bps_path patched_dir flips_path clean_rom proc).1
      = zeroExit (proc (flipsCmd flips_path bps_path clean_rom patched_dir)) ∧
    (∀ rc o e, proc (flipsCmd flips_path bps_path clean_rom patched_dir) = .ret rc o e →
      rc ≠ 0 →
      ("ERROR", "Failed to patch " ++ lastSlashSegment bps_path ++ ": " ++ e)
        ∈ (patch_bps_file bps_path patched_dir flips_path clean_rom proc).2) ∧
    (∀ m, proc (flipsCmd flips_path bps_path clean_rom patched_dir) = .raised m →
      (patch_bps_file bps_path patched_dir flips_path clean_rom proc).1 = false) := by
  refine ⟨rfl, ?_, ?_, ?_⟩
  · unfold patch_bps_file
    cases hp : proc (flipsCmd flips_path bps_path clean_rom patched_dir) with
    | ret rc o e =>
      simp only [zeroExit]
      by_cases h0 : rc = 0
      · simp [h0]
      · simp [h0]
    | raised m => simp [zeroExit]
  · intro rc o e hp h0
    unfold patch_bps_file
    rw [hp]
    simp [h0]
  · intro m hp
    unfold patch_bps_file
    rw [hp]

/-- Witness for C2: a nonzero exit yields False with the standard error text
in the log, at a concrete invocation. -/
theorem c2_patch_adapter_witness :
    ((fun _ : List String => ProcOut.ret 2 "" "bad patch")
        (flipsCmd "./flips" "b/x.bps" "clean.smc" "out") = ProcOut.ret 2 "" "bad patch") ∧
    ("ERROR", "Failed to patch " ++ lastSlashSegment "b/x.bps" ++ ": " ++ "bad patch")
      ∈ (patch_bps_file "b/x.bps" "out" "./flips" "clean.smc"
          (fun _ => ProcOut.ret 2 "" "bad patch")).2 ∧
    (patch_bps_file "b/x.bps" "out" "./flips" "clean.smc"
        (fun _ => ProcOut.ret 2 "" "bad patch")).1
      = zeroExit ((fun _ : List String => ProcOut.ret 2 "" "bad patch")
          (flipsCmd "./flips" "b/x.bps" "clean.smc" "out")) :=
  ⟨rfl,
   (c2_patch_adapter "b/x.bps" "out" "./flips" "clean.smc"
     (fun _ => ProcOut.ret 2 "" "bad patch")).2.2.1 2 "" "bad patch" rfl (by decide),
   (c2_patch_adapter "b/x.bps" "out" "./flips" "clean.smc"
     (fun _ => ProcOut.ret 2 "" "bad patch")).2.1⟩

/-- C7: a partition of two catalog items, the first a valid single-patch
archive whose patch applies cleanly and the second answered with 403, ends
with total 2, downloaded 1, requires-login 1, one extracted patch, one
successful patch, no failed downloads, and a login-required list holding
exactly the second item with its name, authors and URL. -/
theorem c7_two_item_partition (zd bd pd fp cr : String) (env : Env)
    (n1 a1 u1 n2 a2 u2 mname o e : String) (bytes : List Nat) (blob2 : ZipBlob)
    (hu1 : u1 ≠ "") (hu2 : u2 ≠ "")
    (hm : pyEndsWith (pyLower mname) ".bps" = true)
    (h1 : env.http u1 = .resp 200 (.zipOf [(mname, .ok bytes)]))
    (h2 : env.http u2 = .resp 403 blob2)
    (hp : env.proc (flipsCmd fp
        (posixJoin bd (newBpsName 1
          (format_filename (mkItem n1 a1 u1) (lastSlashSegment u1))
          (pyUnquote (lastSlashSegment u1)) bytes)) cr pd) = .ret 0 o e) :
    processItems zd bd pd fp cr env [mkItem n1 a1 u1, mkItem n2 a2 u2]
      = .ok { total_hacks := 2, downloaded := 1, failed_downloads := 0,
              requires_login := 1, total_bps := 1, patched := 1, failed_patches := 0,
              login_required_hacks := [{ name := .str n2, authors := a2, url := .str u2 }],
              failed_hacks := [] } := by
  unfold processItems
  rw [List.foldlM_cons,
    processItem_dl_single zd bd pd fp cr env initStats n1 a1 u1 mname bytes o e hu1 hm h1 hp,
    pyBind_ok, List.foldlM_cons,
    processItem_403 zd bd pd fp cr env _ n2 a2 u2 blob2 hu2 h2,
    pyBind_ok, List.foldlM_nil]
  rfl

/-- Witness for C7: the scenario at concrete names, URLs and bytes. -/
theorem c7_two_item_partition_witness :
    processItems "z" "b" "p" "f" "c"
      { http := fun u => if u = "http://s/one.zip"
          then .resp 200 (.zipOf [("patch.bps", .ok [7])])
          else .resp 403 .notZip,
        proc := fun _ => .ret 0 "" "" }
      [mkItem "Easy" "A1" "http://s/one.zip", mkItem "Hard" "A2" "http://s/two.zip"]
      = .ok { total_hacks := 2, downloaded := 1, failed_downloads := 0,
              requires_login := 1, total_bps := 1, patched := 1, failed_patches := 0,
              login_required_hacks :=
                [{ name := .str "Hard", authors := "A2", url := .str "http://s/two.zip" }],
              failed_hacks := [] } :=
  c7_two_item_partition "z" "b" "p" "f" "c"
    { http := fun u => if u = "http://s/one.zip"
        then .resp 200 (.zipOf [("patch.bps", .ok [7])])
        else .resp 403 .notZip,
      proc := fun _ => .ret 0 "" "" }
    "Easy" "A1" "http://s/one.zip" "Hard" "A2" "http://s/two.zip" "patch.bps" "" ""
    [7] ZipBlob.notZip (by decide) (by decide) (by decide) rfl rfl rfl

/-- C10 counterexample: a run in which the second member of an archive fails
to read aborts extraction with bps_count left at zero while the first
extracted file is still patched; at partition end patched + failed_patches
is 1 but total_bps is 0, refuting the stated equality. -/
theorem c10_counterexample :
    Except.map
      (fun s : Stats => ((s.patched + s.failed_patches == s.total_bps : Bool),
        s.patched + s.failed_patches, s.total_bps))
      (processItems "z" "b" "p" "f" "c"
        { http := fun _ => .resp 200 (.zipOf
            [("a.bps", .ok [1, 2]), ("b.bps", .error .badZip)]),
          proc := fun _ => .ret 0 "" "" }
        [mkItem "H" "A" "http://s/p.zip"])
      = Except.ok (false, 1, 0) := by
  rfl

/-- C10 amended: an item without a truthy download URL leaves the accumulator
untouched; an item with one adds exactly one to total_hacks and to exactly one
of requires_login, failed_downloads, downloaded; at partition end total_hacks
equals their sum, and patched + failed_patches equals total_bps provided every
processed item reports an extracted-file count equal to the length of its
extracted list, which holds whenever no extraction aborts mid-archive. -/
theorem c10_stats_invariants (zd bd pd fp cr : String) (env : Env) :
    (∀ (stats : Stats) (kvs : List (String × JVal)),
      ((lookupKey kvs "download_url").getD .null).truthy = false →
      processItem zd bd pd fp cr env stats (.obj kvs) = .ok stats) ∧
    (∀ (stats s2 : Stats) (kvs : List (String × JVal)),
      ((lookupKey kvs "download_url").getD .null).truthy = true →
      processItem zd bd pd fp cr env stats (.obj kvs) = .ok s2 →
      s2.total_hacks = stats.total_hacks + 1 ∧
      ((s2.requires_login = stats.requires_login + 1 ∧
          s2.failed_downloads = stats.failed_downloads ∧
          s2.downloaded = stats.downloaded) ∨
       (s2.requires_login = stats.requires_login ∧
          s2.failed_downloads = stats.failed_downloads + 1 ∧
          s2.downloaded = stats.downloaded) ∨
       (s2.requires_login = stats.requires_login ∧
          s2.failed_downloads = stats.failed_downloads ∧
          s2.downloaded = stats.downloaded + 1))) ∧
    (∀ (items : List JVal) (s : Stats),
      processItems zd bd pd fp cr env items = .ok s →
      s.total_hacks = s.downloaded + s.failed_downloads + s.requires_login) ∧
    (∀ (items : List JVal) (s : Stats),
      processItems zd bd pd fp cr env items = .ok s →
      (∀ item ∈ items,
        ((download_and_extract_bps item (itemUrl item) zd bd env.http).1).bps_count
          = ((download_and_extract_bps item (itemUrl item) zd bd env.http).1).bps_files.length) →
      s.patched + s.failed_patches = s.total_bps) := by
  refine ⟨?_, ?_, ?_, ?_⟩
  · intro stats kvs hurl
    exact processItem_skip zd bd pd fp cr env stats kvs hurl
  · intro stats s2 kvs hurl h
    exact processItem_counted zd bd pd fp cr env stats s2 _ kvs rfl hurl h
  · intro items s h
    unfold processItems at h
    exact foldlM_inv zd bd pd fp cr env
      (fun st => st.total_hacks = st.downloaded + st.failed_downloads + st.requires_login)
      items (fun a b j _ hab hp => processItem_inv1 zd bd pd fp cr env a b j hab hp)
      initStats s h rfl
  · intro items s h hc
    unfold processItems at h
    exact foldlM_inv zd bd pd fp cr env
      (fun st => st.patched + st.failed_patches = st.total_bps)
      items (fun a b j hj hab hp =>
        processItem_inv2 zd bd pd fp cr env a b j hab (hc j hj) hp)
      initStats s h rfl

/-- Witness for C10: a one-item run without extraction failure satisfies both
equalities, and the skipped and counted cases hold at concrete items. -/
theorem c10_stats_invariants_witness :
    (processItems "z" "b" "p" "f" "c"
        { http := fun _ => .resp 200 (.zipOf [("a.bps", .ok [9])]),
          proc := fun _ => .ret 0 "" "" }
        [mkItem "H" "A" "http://s/p.zip"]
      = Except.ok
          { total_hacks := 1, downloaded := 1, failed_downloads := 0,
            requires_login := 0, total_bps := 1, patched := 1, failed_patches := 0,
            login_required_hacks := [], failed_hacks := [] }) ∧
    ({ total_hacks := 1, downloaded := 1, failed_downloads := 0,
       requires_login := 0, total_bps := 1, patched := 1, failed_patches := 0,
       login_required_hacks := [], failed_hacks := [] } : Stats).total_hacks
      = 1 + 0 + 0 ∧
    (1 + 0 = 1) ∧
    processItem "z" "b" "p" "f" "c"
        { http := fun _ => .resp 200 (.zipOf [("a.bps", .ok [9])]),
          proc := fun _ => .ret 0 "" "" }
        initStats (.obj [("name", .str "NoUrl")]) = .ok initStats := by
  refine ⟨rfl, ?_, ?_, ?_⟩
  · have h3 := (c10_stats_invariants "z" "b" "p" "f" "c"
      { http := fun _ => .resp 200 (.zipOf [("a.bps", .ok [9])]),
        proc := fun _ => .ret 0 "" "" }).2.2.1
      [mkItem "H" "A" "http://s/p.zip"] _ rfl
    simpa using h3
  · have h4 := (c10_stats_invariants "z" "b" "p" "f" "c"
      { http := fun _ => .resp 200 (.zipOf [("a.bps", .ok [9])]),
        proc := fun _ => .ret 0 "" "" }).2.2.2
      [mkItem "H" "A" "http://s/p.zip"] _ rfl
      (by
        intro item hi
        simp only [List.mem_singleton] at hi
        subst hi
        rfl)
    simpa using h4
  · exact (c10_stats_invariants "z" "b" "p" "f" "c"
      { http := fun _ => .resp 200 (.zipOf [("a.bps", .ok [9])]),
        proc := fun _ => .ret 0 "" "" }).1 initStats
      [("name", .str "NoUrl")] (by decide)

theorem hashName_inj (base dec : String)
    (hzip : hasSub dec.data (".zip" : String).data = true)
    (hbase : hasSub base.data dec.data = true)
    (h1 h2 : String) (l1 : h1.data.length = 6) (l2 : h2.data.length = 6)
    (h : pyReplace base dec (pyReplace dec ".zip" ("_" ++ h1 ++ ".bps"))
       = pyReplace base dec (pyReplace dec ".zip" ("_" ++ h2 ++ ".bps"))) :
    h1 = h2 := by
  have hzn : (".zip" : String).data ≠ [] := by decide
  have hdn : dec.data ≠ [] := hasSub_ne_nil hzn hzip
  have hy1 : ("_" ++ h1 ++ ".bps").data
      = ("_".data ++ h1.data) ++ (".bps" : String).data := rfl
  have hy2 : ("_" ++ h2 ++ ".bps").data
      = ("_".data ++ h2.data) ++ (".bps" : String).data := rfl
  have hylen : ("_" ++ h1 ++ ".bps").data.length
      = ("_" ++ h2 ++ ".bps").data.length := by
    rw [hy1, hy2]
    simp [l1, l2]
  have hxlen : (pyReplace dec ".zip" ("_" ++ h1 ++ ".bps")).data.length
      = (pyReplace dec ".zip" ("_" ++ h2 ++ ".bps")).data.length := by
    show (replFuel (".zip" : String).data ("_" ++ h1 ++ ".bps").data
        dec.data.length dec.data).length
      = (replFuel (".zip" : String).data ("_" ++ h2 ++ ".bps").data
        dec.data.length dec.data).length
    exact replFuel_length_cong hylen _ _
  have hx := pyReplace_cancel hdn hxlen hbase h
  have hy := pyReplace_cancel hzn hylen hzip hx
  have hd := congrArg String.data hy
  rw [hy1, hy2] at hd
  have hpre := List.append_inj_left hd (by simp [l1, l2])
  exact String.ext (List.append_cancel_left hpre)

set_option maxRecDepth 400000 in
/-- C1 counterexample: an archive with two patch members of equal length but
different bytes whose MD5 hexdigests agree on the first six characters.  Both
generated filenames coincide, so the generated names are not pairwise
distinct and the second write overwrites the first. -/
theorem c1_counterexample :
    (([97, 99, 121, 121] : List Nat) ≠ [97, 101, 107, 107]) ∧
    ([97, 99, 121, 121] : List Nat).length = ([97, 101, 107, 107] : List Nat).length ∧
    get_short_hash [97, 99, 121, 121] = "17f422" ∧
    get_short_hash [97, 101, 107, 107] = "17f422" ∧
    (download_and_extract_bps (JVal.obj []) (.str "http://s/pack.zip") "z" "b"
        (fun _ => .resp 200 (.zipOf
          [("a.bps", .ok [97, 99, 121, 121]),
           ("b.bps", .ok [97, 101, 107, 107])]))).1.bps_files
      = ["b/Unknown - Unknown - Unknown - Unknown - Unknown - pack_17f422.bps",
         "b/Unknown - Unknown - Unknown - Unknown - Unknown - pack_17f422.bps"] ∧
    ¬ ((download_and_extract_bps (JVal.obj []) (.str "http://s/pack.zip") "z" "b"
        (fun _ => .resp 200 (.zipOf
          [("a.bps", .ok [97, 99, 121, 121]),
           ("b.bps", .ok [97, 101, 107, 107])]))).1.bps_files.Nodup) := by
  refine ⟨by decide, rfl, by decide, by decide, by decide, by decide⟩

/-- C1 amended: a single-patch archive is named without a hash (the decoded
zip name with .zip turned into .bps, substituted into the base name); with two
or more patch members every generated name carries a 6-character lowercase
hexadecimal content-hash suffix in place of .zip, and the names are pairwise
distinct provided the decoded name contains .zip, the base name contains the
decoded name, and the members truncated hashes are pairwise distinct -
members with equal bytes, or different bytes colliding on the truncated hash,
produce the same name. -/
theorem c1_generated_names (item : JVal) (u zip_dir bps_dir : String)
    (http : String → HttpResp) (ms : List (String × List Nat))
    (h : http u = .resp 200 (.zipOf (ms.map (fun m => (m.1, Except.ok m.2))))) :
    ((bpsMembersOf ms).length = 1 →
      (download_and_extract_bps item (.str u) zip_dir bps_dir http).1.bps_files
        = (bpsMembersOf ms).map (fun _ => posixJoin bps_dir
            (pyReplace (format_filename item (lastSlashSegment u))
              (pyUnquote (lastSlashSegment u))
              (pyReplace (pyUnquote (lastSlashSegment u)) ".zip" ".bps")))) ∧
    (2 ≤ (bpsMembersOf ms).length →
      ((download_and_extract_bps item (.str u) zip_dir bps_dir http).1.bps_files
        = (bpsMembersOf ms).map (fun m => posixJoin bps_dir
            (pyReplace (format_filename item (lastSlashSegment u))
              (pyUnquote (lastSlashSegment u))
              (pyReplace (pyUnquote (lastSlashSegment u)) ".zip"
                ("_" ++ get_short_hash m.2 ++ ".bps")))) ∧
       (∀ m ∈ bpsMembersOf ms, (get_short_hash m.2).data.length = 6 ∧
          ∀ c ∈ (get_short_hash m.2).data, c ∈ "0123456789abcdef".data) ∧
       (hasSub (pyUnquote (lastSlashSegment u)).data (".zip" : String).data = true →
        hasSub (format_filename item (lastSlashSegment u)).data
          (pyUnquote (lastSlashSegment u)).data = true →
        ((bpsMembersOf ms).map (fun m => get_short_hash m.2)).Nodup →
        ((bpsMembersOf ms).map (fun m =>
          pyReplace (format_filename item (lastSlashSegment u))
            (pyUnquote (lastSlashSegment u))
            (pyReplace (pyUnquote (lastSlashSegment u)) ".zip"
              ("_" ++ get_short_hash m.2 ++ ".bps")))).Nodup))) := by
  have hdl := download_200_members item u zip_dir bps_dir http ms h
  constructor
  · intro hone
    rw [hdl]
    dsimp only
    apply List.map_congr_left
    intro m hm
    rw [hone]
    unfold newBpsName
    rw [if_pos rfl]
  · intro htwo
    have hne : (bpsMembersOf ms).length ≠ 1 := by omega
    refine ⟨?_, ?_, ?_⟩
    · rw [hdl]
      dsimp only
      apply List.map_congr_left
      intro m hm
      unfold newBpsName
      rw [if_neg hne]
    · intro m hm
      exact ⟨get_short_hash_data_length m.2, get_short_hash_mem m.2⟩
    · intro hzip hbase hnd
      have hmapeq : (bpsMembersOf ms).map (fun m =>
            pyReplace (format_filename item (lastSlashSegment u))
              (pyUnquote (lastSlashSegment u))
              (pyReplace (pyUnquote (lastSlashSegment u)) ".zip"
                ("_" ++ get_short_hash m.2 ++ ".bps")))
          = ((bpsMembersOf ms).map (fun m => get_short_hash m.2)).map
              (fun hsh => pyReplace (format_filename item (lastSlashSegment u))
                (pyUnquote (lastSlashSegment u))
                (pyReplace (pyUnquote (lastSlashSegment u)) ".zip"
                  ("_" ++ hsh ++ ".bps"))) := by
        rw [List.map_map]
        rfl
      rw [hmapeq]
      apply List.Nodup.map_on ?_ hnd
      intro x hx y hy hxy
      have hx6 : x.data.length = 6 := by
        obtain ⟨m, hm, hrx⟩ := List.mem_map.mp hx
        rw [← hrx]
        exact get_short_hash_data_length m.2
      have hy6 : y.data.length = 6 := by
        obtain ⟨m, hm, hry⟩ := List.mem_map.mp hy
        rw [← hry]
        exact get_short_hash_data_length m.2
      exact hashName_inj (format_filename item (lastSlashSegment u))
        (pyUnquote (lastSlashSegment u)) hzip hbase x y hx6 hy6 hxy

set_option maxRecDepth 400000 in
/-- Witness for C1: a two-member archive with distinct truncated hashes gets
pairwise distinct generated names. -/
theorem c1_generated_names_witness :
    2 ≤ (bpsMembersOf [("a.bps", ([1] : List Nat)), ("b.bps", [2])]).length ∧
    ((bpsMembersOf [("a.bps", ([1] : List Nat)), ("b.bps", [2])]).map (fun m =>
        pyReplace (format_filename (JVal.obj []) (lastSlashSegment "http://s/pack.zip"))
          (pyUnquote (lastSlashSegment "http://s/pack.zip"))
          (pyReplace (pyUnquote (lastSlashSegment "http://s/pack.zip")) ".zip"
            ("_" ++ get_short_hash m.2 ++ ".bps")))).Nodup :=
  ⟨by decide,
   (((c1_generated_names (JVal.obj []) "http://s/pack.zip" "z" "b"
      (fun _ => .resp 200 (.zipOf [("a.bps", .ok [1]), ("b.bps", .ok [2])]))
      [("a.bps", [1]), ("b.bps", [2])] rfl).2 (by decide)).2.2 (by decide) (by decide)
      (by decide))⟩

end KaizoArchiver
